/-
Verification of the process lifecycle and scheduling wrapper of the aoforge CLI
(`src/cli/src/core/managers/process-manager.ts`), as a shallow embedding in Lean 4.

The embedding models:
  * the `Schedule` class (periodic tick scheduler with bounded consecutive-failure
    retries and an escalation call when retries are exhausted);
  * the `ProcessManager` class state (tracked child-process handle, process name,
    `ProcessState`), its `stopProcess` / `isProcessRunning` operations, the
    argument-list construction of `startAOProcessForeground` /
    `startAOProcessBackground`, and the recursive directory walk of `findLuaFiles`.

JavaScript truthiness (`x || d` replaces any falsy `x`, so empty strings and the
number 0 also fall back to the default) is modelled explicitly by the `strTruthy`
and `natTruthy` helpers.  Asynchronous effects are modelled by explicit state
passing; exceptions by `Except`.  Timer callbacks of `setInterval` are modelled
by feeding the scheduler an explicit list of outcomes of the stubbed
`evaluateProcess` calls, one pair per timer firing (outcome of the tick call,
outcome of a possible escalation call).
-/
import Mathlib

deriving instance DecidableEq for Except

namespace AOForge

/-! ## JavaScript truthiness helpers -/

/-- Truthiness of a possibly-absent JS string: `undefined` and `""` are falsy. -/
def strTruthy : Option String → Bool
  | some s => !(s == "")
  | none => false

/-- `a || b` on possibly-absent JS strings. -/
def jsOrStr (a b : Option String) : Option String :=
  if strTruthy a then a else b

/-- `a || d` where `d` is a (truthy) string literal, as in `options.tick || 'tick'`. -/
def jsOrStrD (a : Option String) (d : String) : String :=
  (jsOrStr a (some d)).getD d

/-- Truthiness of a possibly-absent JS number: `undefined` and `0` are falsy. -/
def natTruthy : Option Nat → Bool
  | some n => !(n == 0)
  | none => false

/-- `a || d` where `d` is a (nonzero) numeric literal, as in `options.interval || 1000`. -/
def jsOrNatD (a : Option Nat) (d : Nat) : Nat :=
  if natTruthy a then a.getD d else d

/-! ## The `Schedule` class (`process-manager.ts`, lines 25-94) -/

/-- `ScheduleOptions` (lines 25-30): all four fields optional. -/
structure ScheduleOptions where
  interval : Option Nat := none
  tick : Option String := none
  maxRetries : Option Nat := none
  onError : Option String := none
deriving Repr, DecidableEq

/-- `Required<ScheduleOptions>`: the resolved options stored in `this.options`. -/
structure ResolvedScheduleOptions where
  interval : Nat
  tick : String
  maxRetries : Nat
  onError : String
deriving Repr, DecidableEq

/-- The `Schedule` constructor's option resolution (lines 42-47):
`interval: options.interval || 1000`, `tick: options.tick || 'tick'`,
`maxRetries: options.maxRetries || 3`, `onError: options.onError || 'handleError'`,
each `||` using JS truthiness. -/
def resolveScheduleOptions (options : ScheduleOptions) : ResolvedScheduleOptions :=
  { interval := jsOrNatD options.interval 1000
    tick := jsOrStrD options.tick "tick"
    maxRetries := jsOrNatD options.maxRetries 3
    onError := jsOrStrD options.onError "handleError" }

/-- The mutable run state of a `Schedule`: `timer` is `true` iff the nullable
`setInterval` handle is non-null (line 35), `retryCount` is the consecutive
failure counter (line 36). -/
structure ScheduleState where
  timer : Bool
  retryCount : Nat
deriving Repr, DecidableEq

/-- Field initializers of a freshly constructed `Schedule`:
`timer = null`, `retryCount = 0` (lines 35-36). -/
def Schedule.initState : ScheduleState := { timer := false, retryCount := 0 }

/-- `Schedule.start()` (lines 50-80): throws `'Scheduler already running'` when the
timer handle is non-null, otherwise installs the recurring timer.  The returned
pair is (thrown error or unit, run state after the call); on a throw the
mutation `this.timer = setInterval(...)` is never executed, so the state is
returned unchanged. -/
def Schedule.start (s : ScheduleState) : Except String Unit × ScheduleState :=
  if s.timer then (Except.error "Scheduler already running", s)
  else (Except.ok (), { s with timer := true })

/-- `Schedule.stop()` (lines 82-89): when the timer handle is non-null, clears it
and resets the failure counter; otherwise a no-op. -/
def Schedule.stop (s : ScheduleState) : ScheduleState :=
  if s.timer then { timer := false, retryCount := 0 } else s

/-- `Schedule.isRunning()` (lines 91-93): `this.timer !== null`. -/
def Schedule.isRunning (s : ScheduleState) : Bool := s.timer

/-- Outcome of one stubbed `processManager.evaluateProcess` call: it either
resolves or rejects. -/
inductive EvalResult where
  | success
  | failure
deriving Repr, DecidableEq

/-- One recorded `evaluateProcess` invocation: the `input` argument and the
optional options argument `{ await, timeout }` (modelled as a pair of the
`await` flag and the `timeout` string). -/
structure EvalCall where
  input : String
  options : Option (Bool × String)
deriving Repr, DecidableEq

/-- One firing of the `setInterval` callback (lines 57-79), given the outcomes of
the stubbed evaluate calls.  On success of
`evaluateProcess(tick, { await: true, timeout: interval.toString() })` the
failure counter is reset to 0.  On failure the counter is incremented; if it has
reached `maxRetries` the scheduler is stopped (`await this.stop()`) and
`evaluateProcess(onError)` is invoked once, with any error from that escalation
call caught and only logged (both outcomes of `escalation` give the same
result), otherwise the tick ends and the next firing will retry.  The result is
always `Except.ok`: no error escapes the callback. -/
def Schedule.tickOnce (opts : ResolvedScheduleOptions) (s : ScheduleState)
    (tickResult escalation : EvalResult) :
    Except String (ScheduleState × List EvalCall) :=
  let tickCall : EvalCall := { input := opts.tick, options := some (true, toString opts.interval) }
  match tickResult with
  | EvalResult.success => Except.ok ({ s with retryCount := 0 }, [tickCall])
  | EvalResult.failure =>
    let s1 : ScheduleState := { s with retryCount := s.retryCount + 1 }
    if opts.maxRetries ≤ s1.retryCount then
      let s2 := Schedule.stop s1
      let errCall : EvalCall := { input := opts.onError, options := none }
      match escalation with
      | EvalResult.success => Except.ok (s2, [tickCall, errCall])
      | EvalResult.failure => Except.ok (s2, [tickCall, errCall])
    else Except.ok (s1, [tickCall])

/-- Runs the recurring timer: one `tickOnce` per list element while the timer
handle is installed; once `stop()` has cleared the handle, no further callback
fires.  Returns the final run state and the concatenated list of recorded
`evaluateProcess` invocations. -/
def Schedule.runTicks (opts : ResolvedScheduleOptions) :
    ScheduleState → List (EvalResult × EvalResult) → ScheduleState × List EvalCall
  | s, [] => (s, [])
  | s, r :: rs =>
    if s.timer then
      match Schedule.tickOnce opts s r.1 r.2 with
      | Except.ok (s1, cs) =>
        let rest := Schedule.runTicks opts s1 rs
        (rest.1, cs ++ rest.2)
      | Except.error _ => (s, [])
    else (s, [])

/-! ## Data model of the `ProcessManager` class (`process-manager.ts`, lines 96-508)
and the types it uses (`types/aos.ts`). -/

/-- `ProcessOptions` (`process-manager.ts`, lines 10-23): all fields optional;
the booleans are falsy when absent, so they are modelled as plain `Bool`. -/
structure ProcessOptions where
  name : Option String := none
  wallet : Option String := none
  data : Option String := none
  tagName : Option String := none
  tagValue : Option String := none
  module : Option String := none
  cron : Option String := none
  monitor : Bool := false
  sqlite : Bool := false
  gatewayUrl : Option String := none
  cuUrl : Option String := none
  muUrl : Option String := none
deriving Repr, DecidableEq

/-- The `aos.features` section of `AOConfig` (`types/aos.ts`). -/
structure AOConfigFeatures where
  coroutines : Bool
  bootloader : Bool
  weavedrive : Bool
deriving Repr, DecidableEq

/-- The `aos` section of `AOConfig`: `version` is the literal `'1.x'` or `'2.x'`,
modelled as a string. -/
structure AOConfigAos where
  version : String
  features : AOConfigFeatures
deriving Repr, DecidableEq

/-- `AOConfig` (`types/aos.ts`): the fields read by the process manager, plus the
remaining required fields of the interface (package manager, framework, ports,
`runWithAO`, tags) modelled with basic types. -/
structure AOConfig where
  luaFiles : List String
  packageManager : String
  framework : String
  processName : String
  portsDev : Nat
  portsBuild : Option Nat := none
  aos : AOConfigAos
  runWithAO : Bool
  tags : List (String × String)
deriving Repr, DecidableEq

/-- `AOSFeatures` (`types/aos.ts`): the feature block stored in `ProcessState`. -/
structure AOSFeatures where
  coroutines : Bool
  requestResponse : Bool
  defaultActions : Bool
  bootloader : Bool
  weavedrive : Bool
  version : String
deriving Repr, DecidableEq

/-- `ProcessConfig` (`types/aos.ts`): the configuration block embedded in
`ProcessState`; the fields `startAOProcessForeground` populates. -/
structure ProcessConfig where
  name : String
  monitor : Bool
  sqlite : Bool
  tags : List (String × String)
  luaFiles : List String
deriving Repr, DecidableEq

/-- `ProcessState` (`types/aos.ts`): `status` is one of `'starting' | 'running' |
'stopped' | 'error'`, modelled as a string; messages and errors are the
append-only logs (message payloads and error texts). -/
structure ProcessState where
  id : String
  status : String
  features : AOSFeatures
  messages : List String
  errors : List String
  config : ProcessConfig
deriving Repr, DecidableEq

/-- The tracked `ChildProcess` handle: only its `killed` flag is observable
through the operations under verification. -/
structure ChildProcessHandle where
  killed : Bool
deriving Repr, DecidableEq

/-- The mutable fields of a `ProcessManager` (lines 97-101) that the verified
operations touch: the nullable child-process handle, the nullable process name
and the nullable `ProcessState`. -/
structure PMState where
  process : Option ChildProcessHandle := none
  processName : Option String := none
  processState : Option ProcessState := none
deriving Repr, DecidableEq

/-- Field initializers of a freshly constructed `ProcessManager` (lines 98-100):
all three tracked fields start out null. -/
def ProcessManager.init : PMState :=
  { process := none, processName := none, processState := none }

/-! ## Argument-list construction and process start
(`startAOProcessForeground`, lines 277-373; the argument-building block is
textually identical in `startAOProcessBackground`, lines 178-275). -/

/-- `config.processName` viewed as a possibly-falsy JS string: the interface
declares it as a plain `string`, and the empty string is falsy. -/
def nonEmptyStr (s : String) : Option String :=
  if s == "" then none else some s

/-- `const processName = options.name || config.processName || 'default'`
(line 284). -/
def ProcessManager.effectiveProcessName (config : AOConfig) (options : ProcessOptions) : String :=
  jsOrStrD (jsOrStr options.name (nonEmptyStr config.processName)) "default"

/-- `if (options.x) args.push(flag, options.x)`: two list elements when the
option is truthy, nothing otherwise. -/
def optionArg (flag : String) (v : Option String) : List String :=
  if strTruthy v then [flag, v.getD ""] else []

/-- The argument list built by `startAOProcessForeground` (lines 280-312) and,
with the same code, by `startAOProcessBackground` (lines 181-213):
the positional process name is pushed only under
`if (options.name || config.processName)` (line 283); then `--wallet`, one
`--load` pair per configured Lua file (guarded by
`config.luaFiles && config.luaFiles.length > 0`), `--data`, the tag pair (only
when both `tagName` and `tagValue` are truthy), `--module`, `--cron`, the
`--monitor` and `--sqlite` flags, and the three URL overrides. -/
def ProcessManager.buildArgs (config : AOConfig) (options : ProcessOptions) : List String :=
  (if strTruthy options.name || strTruthy (nonEmptyStr config.processName) then
    [ProcessManager.effectiveProcessName config options]
  else [])
  ++ optionArg "--wallet" options.wallet
  ++ (if 0 < config.luaFiles.length then
        config.luaFiles.flatMap (fun file => ["--load", file])
      else [])
  ++ optionArg "--data" options.data
  ++ (if strTruthy options.tagName && strTruthy options.tagValue then
        ["--tag-name", options.tagName.getD "", "--tag-value", options.tagValue.getD ""]
      else [])
  ++ optionArg "--module" options.module
  ++ optionArg "--cron" options.cron
  ++ (if options.monitor then ["--monitor"] else [])
  ++ (if options.sqlite then ["--sqlite"] else [])
  ++ optionArg "--gateway-url" options.gatewayUrl
  ++ optionArg "--cu-url" options.cuUrl
  ++ optionArg "--mu-url" options.muUrl

/-- `startAOProcessForeground(projectPath, config, options)` (lines 277-373), as
a transition on the tracked manager state, also returning the argument list
passed to `spawn('aos', args, ...)`.  `this.processName` is assigned only inside
the `if (options.name || config.processName)` guard (line 286); the spawned
handle is tracked with `killed` still false; the fresh `ProcessState` is built
exactly as in lines 333-354, with `this.processName || 'default'` for its `id`
and `config.name`.  (The persisted-info file write and the stdio event-handler
registration are external effects outside the modelled state.) -/
def ProcessManager.startAOProcessForeground (pm : PMState) (config : AOConfig)
    (options : ProcessOptions) : PMState × List String :=
  let args := ProcessManager.buildArgs config options
  let newName : Option String :=
    if strTruthy options.name || strTruthy (nonEmptyStr config.processName) then
      some (ProcessManager.effectiveProcessName config options)
    else pm.processName
  let stateId := jsOrStrD newName "default"
  let st : ProcessState :=
    { id := stateId
      status := "running"
      features :=
        { coroutines := config.aos.features.coroutines
          requestResponse := false
          defaultActions := false
          bootloader := config.aos.features.bootloader
          weavedrive := config.aos.features.weavedrive
          version := config.aos.version }
      messages := []
      errors := []
      config :=
        { name := stateId
          monitor := options.monitor
          sqlite := options.sqlite
          tags := []
          luaFiles := config.luaFiles } }
  ({ process := some { killed := false }
     processName := newName
     processState := some st }, args)

/-- `startAOProcess(projectPath, config, options)` (lines 174-176): the body is
a single delegation, `return this.startAOProcessForeground(projectPath, config,
options)`. -/
def ProcessManager.startAOProcess (pm : PMState) (config : AOConfig)
    (options : ProcessOptions) : PMState × List String :=
  ProcessManager.startAOProcessForeground pm config options

/-! ## `stopProcess` and `isProcessRunning` (lines 478-499) -/

/-- Observable outcome of one `stopProcess()` call: the manager state after the
call, whether a termination signal was sent (`this.process.kill()`), and the
warning emitted when nothing was tracked. -/
structure StopResult where
  state : PMState
  signalSent : Bool
  warning : Option String
deriving Repr, DecidableEq

/-- `stopProcess()` (lines 478-495): when a handle is tracked, it is killed and
cleared and, when a `ProcessState` exists, its status is set to `'stopped'`;
when nothing is tracked, the call logs `'No process running to stop'` and
returns normally.  Both paths return without throwing. -/
def ProcessManager.stopProcess (pm : PMState) : StopResult :=
  match pm.process with
  | some _ =>
    { state :=
        { pm with
          process := none
          processState := pm.processState.map (fun st => { st with status := "stopped" }) }
      signalSent := true
      warning := none }
  | none => { state := pm, signalSent := false, warning := some "No process running to stop" }

/-- `isProcessRunning()` (lines 497-499): `this.process !== null &&
!this.process.killed`. -/
def ProcessManager.isProcessRunning (pm : PMState) : Bool :=
  match pm.process with
  | some h => !h.killed
  | none => false

/-! ## `findLuaFiles` (lines 149-172)

The directory tree seen by the walk is modelled as an inductive value: a
directory entry (`fs.readdir(dir, { withFileTypes: true })` result) is a file, a
readable directory with its entries, or a directory whose `readdir` fails with a
traversal error (unreadable, racing deletion, ...).  Paths are lists of name
components; `path.join` is list append and `path.relative(targetPath, fullPath)`
drops the `targetPath` prefix (the walk only ever builds `fullPath`s that extend
`targetPath`). -/

/-- `s.endsWith(suffix)`, expressed on the underlying character sequences (for
UTF-8 strings the byte-level suffix test of `String.endsWith` coincides with the
character-level one); this form reduces on concrete inputs. -/
def strEndsWith (s suffix : String) : Bool :=
  List.isSuffixOf suffix.data s.data

/-- `s.startsWith(p)`, expressed on the underlying character sequences. -/
def strStartsWith (s p : String) : Bool :=
  List.isPrefixOf p.data s.data

/-- One directory entry as observed through `withFileTypes`. -/
inductive FsEntry where
  | file (name : String)
  | dir (name : String) (entries : List FsEntry)
  | unreadableDir (name : String) (err : String)

mutual

/-- The body of the `for (const entry of entries)` loop (lines 155-162) for one
entry, at current directory `dir`: a non-hidden directory is recursed into
(`readdir` of an unreadable one throws its traversal error), a `.lua` file is
collected relative to `targetPath`, anything else is skipped. -/
def walkEntry (targetPath dir : List String) : FsEntry → Except String (List (List String))
  | FsEntry.file name =>
    if strEndsWith name ".lua" then
      Except.ok [(dir ++ [name]).drop targetPath.length]
    else Except.ok []
  | FsEntry.dir name entries =>
    if strStartsWith name "." then Except.ok []
    else walkEntries targetPath (dir ++ [name]) entries
  | FsEntry.unreadableDir name err =>
    if strStartsWith name "." then Except.ok []
    else Except.error err

/-- The `walk` closure (lines 153-163) applied to the entry list of directory
`dir`: entries are processed left to right, collected files are appended in
order; the first error aborts the whole walk (the shared `files` array of the
aborted call never reaches the caller). -/
def walkEntries (targetPath dir : List String) : List FsEntry → Except String (List (List String))
  | [] => Except.ok []
  | e :: es =>
    match walkEntry targetPath dir e with
    | Except.error err => Except.error err
    | Except.ok r =>
      match walkEntries targetPath dir es with
      | Except.error err => Except.error err
      | Except.ok rs => Except.ok (r ++ rs)

end

/-- The root directory handed to `findLuaFiles`: either its `readdir` succeeds
with an entry list, or it fails with a traversal error. -/
inductive FsDir where
  | readable (entries : List FsEntry)
  | unreadable (err : String)

/-- `findLuaFiles(targetPath)` (lines 149-172): runs `walk(targetPath)` on the
root directory.  The surrounding `try`/`catch` logs
`'Failed to scan for Lua files'` and then rethrows (`throw error`, line 170), so
any traversal error propagates to the caller unchanged. -/
def ProcessManager.findLuaFiles (targetPath : List String) (root : FsDir) :
    Except String (List (List String)) :=
  match root with
  | FsDir.readable entries => walkEntries targetPath targetPath entries
  | FsDir.unreadable err => Except.error err

/-! ## Specification-side characterizations for the directory walk

These follow the spec's words ("the scan returns only matching-extension files,
as paths relative to the root, excluding anything under the hidden directory"),
to be compared with the walk embedded from the source. -/

/-- `EntryLuaPath e p`: `p` is the path (relative to the directory containing
`e`) of a file whose name ends with `.lua`, reachable from entry `e` without
passing through a directory whose name starts with `.`. -/
inductive EntryLuaPath : FsEntry → List String → Prop where
  | file {name : String} :
      strEndsWith name ".lua" = true → EntryLuaPath (FsEntry.file name) [name]
  | dir {name : String} {entries : List FsEntry} {e : FsEntry} {p : List String} :
      strStartsWith name "." = false → e ∈ entries → EntryLuaPath e p →
      EntryLuaPath (FsEntry.dir name entries) (name :: p)

/-- `EntriesLuaPath entries p`: `p` is the relative path of a `.lua` file
reachable from the entry list `entries` without entering a hidden directory. -/
def EntriesLuaPath (entries : List FsEntry) (p : List String) : Prop :=
  ∃ e ∈ entries, EntryLuaPath e p

/-- The walk, started on the entry list `entries`, reaches a directory whose
`readdir` fails: some non-hidden unreadable directory is reachable through
non-hidden readable directories. -/
inductive ReachesUnreadable : List FsEntry → Prop where
  | here {name err : String} {entries : List FsEntry} :
      FsEntry.unreadableDir name err ∈ entries → strStartsWith name "." = false →
      ReachesUnreadable entries
  | deeper {name : String} {sub entries : List FsEntry} :
      FsEntry.dir name sub ∈ entries → strStartsWith name "." = false →
      ReachesUnreadable sub → ReachesUnreadable entries

/-- If the walk of an entry list succeeds, it succeeded on every entry of the
list. -/
theorem walkEntries_ok_of_mem {targetPath dir : List String} {es : List FsEntry}
    {v : List (List String)} (h : walkEntries targetPath dir es = Except.ok v)
    {e : FsEntry} (he : e ∈ es) :
    ∃ ve, walkEntry targetPath dir e = Except.ok ve := by
  induction es generalizing v with
  | nil => cases he
  | cons a as ih =>
    rw [walkEntries] at h
    cases ha : walkEntry targetPath dir a with
    | error err => rw [ha] at h; cases h
    | ok r =>
      rw [ha] at h
      cases has : walkEntries targetPath dir as with
      | error err => rw [has] at h; cases h
      | ok rs =>
        cases he with
        | head => exact ⟨r, ha⟩
        | tail _ hmem => exact ih has hmem

/-- A walk that reaches an unreadable directory does not succeed. -/
theorem walkEntries_not_ok_of_reaches {es : List FsEntry} (hr : ReachesUnreadable es) :
    ∀ targetPath dir : List String, ¬ ∃ v, walkEntries targetPath dir es = Except.ok v := by
  induction hr with
  | here hmem hvis =>
    intro targetPath dir ⟨v, hok⟩
    obtain ⟨ve, hce⟩ := walkEntries_ok_of_mem hok hmem
    rw [walkEntry, hvis] at hce
    cases hce
  | deeper hmem hvis _ ih =>
    intro targetPath dir ⟨v, hok⟩
    obtain ⟨ve, hce⟩ := walkEntries_ok_of_mem hok hmem
    rw [walkEntry, hvis] at hce
    exact ih targetPath _ ⟨ve, hce⟩

mutual

/-- Paths produced by a successful walk of one entry at current directory
`targetPath ++ pre` are exactly `pre ++ q` for the spec-side Lua paths `q` of
that entry. -/
theorem walkEntry_mem_iff (targetPath pre : List String) (e : FsEntry)
    (v : List (List String))
    (h : walkEntry targetPath (targetPath ++ pre) e = Except.ok v)
    (p : List String) : p ∈ v ↔ ∃ q, EntryLuaPath e q ∧ p = pre ++ q := by
  cases e with
  | file name =>
    rw [walkEntry] at h
    by_cases hl : strEndsWith name ".lua" = true
    · rw [if_pos hl] at h
      cases h
      constructor
      · intro hp
        refine ⟨[name], EntryLuaPath.file hl, ?_⟩
        have hd : ((targetPath ++ pre) ++ [name]).drop targetPath.length = pre ++ [name] := by
          rw [List.append_assoc, List.drop_left]
        simpa [hd] using hp
      · rintro ⟨q, hq, rfl⟩
        cases hq with
        | file _ =>
          have hd : ((targetPath ++ pre) ++ [name]).drop targetPath.length = pre ++ [name] := by
            rw [List.append_assoc, List.drop_left]
          simp [hd]
    · rw [if_neg hl] at h
      cases h
      simp only [List.not_mem_nil, false_iff]
      rintro ⟨q, hq, rfl⟩
      cases hq with
      | file hl2 => exact hl hl2
  | dir name entries =>
    rw [walkEntry] at h
    by_cases hh : strStartsWith name "." = true
    · rw [if_pos hh] at h
      cases h
      simp only [List.not_mem_nil, false_iff]
      rintro ⟨q, hq, rfl⟩
      cases hq with
      | dir hvis _ _ => rw [hvis] at hh; cases hh
    · rw [if_neg hh] at h
      rw [List.append_assoc] at h
      rw [walkEntries_mem_iff targetPath (pre ++ [name]) entries v h p]
      constructor
      · rintro ⟨q, ⟨e1, he1, hq1⟩, rfl⟩
        exact ⟨name :: q, EntryLuaPath.dir (Bool.eq_false_iff.mpr hh) he1 hq1, by simp⟩
      · rintro ⟨q, hq, rfl⟩
        cases hq with
        | dir hvis he1 hq1 =>
          rename_i e1 p1
          exact ⟨p1, ⟨e1, he1, hq1⟩, by simp⟩
  | unreadableDir name err =>
    rw [walkEntry] at h
    by_cases hh : strStartsWith name "." = true
    · rw [if_pos hh] at h
      cases h
      simp only [List.not_mem_nil, false_iff]
      rintro ⟨q, hq, _⟩
      cases hq
    · rw [if_neg hh] at h
      cases h

/-- Paths produced by a successful walk of an entry list at current directory
`targetPath ++ pre` are exactly `pre ++ q` for the spec-side Lua paths `q` of
the list. -/
theorem walkEntries_mem_iff (targetPath pre : List String) (es : List FsEntry)
    (v : List (List String))
    (h : walkEntries targetPath (targetPath ++ pre) es = Except.ok v)
    (p : List String) : p ∈ v ↔ ∃ q, EntriesLuaPath es q ∧ p = pre ++ q := by
  cases es with
  | nil =>
    rw [walkEntries] at h
    cases h
    simp only [List.not_mem_nil, false_iff]
    rintro ⟨q, ⟨e1, he1, _⟩, _⟩
    cases he1
  | cons a as =>
    rw [walkEntries] at h
    cases ha : walkEntry targetPath (targetPath ++ pre) a with
    | error err => rw [ha] at h; cases h
    | ok r =>
      rw [ha] at h
      cases has : walkEntries targetPath (targetPath ++ pre) as with
      | error err => rw [has] at h; cases h
      | ok rs =>
        rw [has] at h
        cases h
        rw [List.mem_append, walkEntry_mem_iff targetPath pre a r ha p,
          walkEntries_mem_iff targetPath pre as rs has p]
        constructor
        · rintro (⟨q, hq, rfl⟩ | ⟨q, ⟨e1, he1, hq1⟩, rfl⟩)
          · exact ⟨q, ⟨a, List.mem_cons_self a as, hq⟩, rfl⟩
          · exact ⟨q, ⟨e1, List.mem_cons_of_mem a he1, hq1⟩, rfl⟩
        · rintro ⟨q, ⟨e1, he1, hq1⟩, rfl⟩
          cases he1 with
          | head => exact Or.inl ⟨q, hq1, rfl⟩
          | tail _ hmem => exact Or.inr ⟨q, ⟨e1, hmem, hq1⟩, rfl⟩

end

/-! ## Generic lemmas about the scheduler loop -/

/-- Once the timer handle has been cleared, no further interval callback fires. -/
theorem runTicks_of_stopped (opts : ResolvedScheduleOptions) (s : ScheduleState)
    (l : List (EvalResult × EvalResult)) (h : s.timer = false) :
    Schedule.runTicks opts s l = (s, []) := by
  cases l with
  | nil => rw [Schedule.runTicks]
  | cons r rs => rw [Schedule.runTicks, h]; simp

/-! ## Claim theorems -/

/-- C1: for a `Schedule` constructed with `maxRetries = 3` over an evaluate
operation that fails on every invocation, the tick loop invokes the evaluate
operation with the tick action exactly 3 times (each with
`{ await: true, timeout: "1000" }`), then invokes the evaluate operation exactly
once with the error-handler action name, and transitions the scheduler to Idle
(`isRunning()` returns `false`); the escalation outcome is universally
quantified, so an error raised by that escalation call is caught and does not
change the result, and the loop is a total function (no error propagates). -/
theorem schedule_retry_bound_escalation (n : Nat) (escalation : EvalResult) :
    Schedule.runTicks (resolveScheduleOptions { maxRetries := some 3 })
        (Schedule.start Schedule.initState).2
        (List.replicate (n + 3) (EvalResult.failure, escalation)) =
      ({ timer := false, retryCount := 0 },
        [{ input := "tick", options := some (true, "1000") },
         { input := "tick", options := some (true, "1000") },
         { input := "tick", options := some (true, "1000") },
         { input := "handleError", options := none }]) ∧
    Schedule.isRunning (Schedule.runTicks (resolveScheduleOptions { maxRetries := some 3 })
        (Schedule.start Schedule.initState).2
        (List.replicate (n + 3) (EvalResult.failure, escalation))).1 = false := by
  have hrep : List.replicate (n + 3) ((EvalResult.failure, escalation)) =
      (EvalResult.failure, escalation) :: (EvalResult.failure, escalation) ::
      (EvalResult.failure, escalation) :: List.replicate n (EvalResult.failure, escalation) := rfl
  rw [hrep]
  have hstop := runTicks_of_stopped
    { interval := 1000, tick := "tick", maxRetries := 3, onError := "handleError" }
    { timer := false, retryCount := 0 }
    (List.replicate n (EvalResult.failure, escalation)) rfl
  have htos : toString (1000 : Nat) = "1000" := by decide
  cases escalation <;>
    simp [Schedule.runTicks, Schedule.tickOnce, Schedule.stop, Schedule.start,
      Schedule.initState, Schedule.isRunning, resolveScheduleOptions, jsOrNatD, jsOrStrD,
      jsOrStr, natTruthy, strTruthy, hstop, htos]

/-- Witness for C1 at `n = 0`, escalation failing: exactly 3 failing ticks are
followed by one escalation call and the scheduler ends Idle. -/
theorem schedule_retry_bound_escalation_witness :
    Schedule.runTicks (resolveScheduleOptions { maxRetries := some 3 })
        (Schedule.start Schedule.initState).2
        (List.replicate (0 + 3) (EvalResult.failure, EvalResult.failure)) =
      ({ timer := false, retryCount := 0 },
        [{ input := "tick", options := some (true, "1000") },
         { input := "tick", options := some (true, "1000") },
         { input := "tick", options := some (true, "1000") },
         { input := "handleError", options := none }]) ∧
    Schedule.isRunning (Schedule.runTicks (resolveScheduleOptions { maxRetries := some 3 })
        (Schedule.start Schedule.initState).2
        (List.replicate (0 + 3) (EvalResult.failure, EvalResult.failure))).1 = false :=
  schedule_retry_bound_escalation 0 EvalResult.failure

/-- C2: in every run state, a tick whose evaluate call succeeds resets the
consecutive-failure counter to zero; and for the default options
(`maxRetries = 3`), the run fail-fail-succeed-fail-fail-fail performs six tick
calls and escalates only after the third post-success failure: failures do not
accumulate across the success boundary. -/
theorem schedule_success_resets_counter :
    (∀ (s : ScheduleState) (escalation : EvalResult),
      Schedule.tickOnce (resolveScheduleOptions {}) s EvalResult.success escalation =
        Except.ok ({ s with retryCount := 0 },
          [{ input := "tick", options := some (true, "1000") }])) ∧
    Schedule.runTicks (resolveScheduleOptions {}) (Schedule.start Schedule.initState).2
        [(EvalResult.failure, EvalResult.failure), (EvalResult.failure, EvalResult.failure),
         (EvalResult.success, EvalResult.failure), (EvalResult.failure, EvalResult.failure),
         (EvalResult.failure, EvalResult.failure), (EvalResult.failure, EvalResult.failure)] =
      ({ timer := false, retryCount := 0 },
        [{ input := "tick", options := some (true, "1000") },
         { input := "tick", options := some (true, "1000") },
         { input := "tick", options := some (true, "1000") },
         { input := "tick", options := some (true, "1000") },
         { input := "tick", options := some (true, "1000") },
         { input := "tick", options := some (true, "1000") },
         { input := "handleError", options := none }]) := by
  have htos : toString (1000 : Nat) = "1000" := by decide
  constructor
  · intro s escalation
    simp [Schedule.tickOnce, resolveScheduleOptions, jsOrNatD, jsOrStrD, jsOrStr,
      natTruthy, strTruthy, htos]
  · decide

/-- C3: `start()` on a Running scheduler (timer handle non-null) throws
`'Scheduler already running'` and leaves the run state (timer and failure
counter) unchanged, installing no second timer; `start()` from Idle installs
the timer and transitions to Running. -/
theorem schedule_start_already_running (rc : Nat) :
    Schedule.start { timer := true, retryCount := rc } =
      (Except.error "Scheduler already running", { timer := true, retryCount := rc }) ∧
    Schedule.start { timer := false, retryCount := rc } =
      (Except.ok (), { timer := true, retryCount := rc }) ∧
    Schedule.isRunning (Schedule.start { timer := false, retryCount := rc }).2 = true := by
  simp [Schedule.start, Schedule.isRunning]

/-- Witness for C3 at `retryCount = 5`. -/
theorem schedule_start_already_running_witness :
    Schedule.start { timer := true, retryCount := 5 } =
      (Except.error "Scheduler already running", { timer := true, retryCount := 5 }) ∧
    Schedule.start { timer := false, retryCount := 5 } =
      (Except.ok (), { timer := true, retryCount := 5 }) ∧
    Schedule.isRunning (Schedule.start { timer := false, retryCount := 5 }).2 = true :=
  schedule_start_already_running 5

/-- C10: the `Schedule` constructor replaces every falsy option value, not only
absent ones: `interval = 0` resolves to 1000 and `maxRetries = 0` resolves to 3
(whatever the other options are), and no option value at all can produce a
resolved `maxRetries` of zero. -/
theorem schedule_options_falsy_replaced :
    (∀ (t e : Option String) (m : Option Nat),
      (resolveScheduleOptions
        { interval := some 0, tick := t, maxRetries := m, onError := e }).interval = 1000) ∧
    (∀ (t e : Option String) (i : Option Nat),
      (resolveScheduleOptions
        { interval := i, tick := t, maxRetries := some 0, onError := e }).maxRetries = 3) ∧
    (∀ o : ScheduleOptions, (resolveScheduleOptions o).maxRetries ≠ 0) := by
  refine ⟨?_, ?_, ?_⟩
  · intro t e m
    simp [resolveScheduleOptions, jsOrNatD, natTruthy]
  · intro t e i
    simp [resolveScheduleOptions, jsOrNatD, natTruthy]
  · intro o
    rcases o with ⟨i, t, m, e⟩
    rcases m with _ | m
    · simp [resolveScheduleOptions, jsOrNatD, natTruthy]
    · by_cases h : m = 0 <;> simp [resolveScheduleOptions, jsOrNatD, natTruthy, h]

/-- C6: `stopProcess()` is total and idempotent.  When a handle is tracked it
sends the termination signal, clears the handle and marks the `ProcessState`
status `'stopped'` when a state exists; when no handle is tracked it emits the
warning and changes nothing; running it twice in a row leaves the state of the
first run unchanged.  Totality (no throw) is by construction: the operation is
a total function into `StopResult`. -/
theorem stopProcess_spec :
    (∀ (pm : PMState) (h : ChildProcessHandle), pm.process = some h →
      ProcessManager.stopProcess pm =
        { state :=
            { pm with
              process := none
              processState := pm.processState.map (fun st => { st with status := "stopped" }) }
          signalSent := true
          warning := none }) ∧
    (∀ pm : PMState, pm.process = none →
      ProcessManager.stopProcess pm =
        { state := pm, signalSent := false, warning := some "No process running to stop" }) ∧
    (∀ pm : PMState,
      (ProcessManager.stopProcess (ProcessManager.stopProcess pm).state).state =
        (ProcessManager.stopProcess pm).state) := by
  refine ⟨?_, ?_, ?_⟩
  · intro pm h hp
    simp [ProcessManager.stopProcess, hp]
  · intro pm hp
    simp [ProcessManager.stopProcess, hp]
  · intro pm
    rcases hp : pm.process with _ | h <;>
      simp [ProcessManager.stopProcess, hp]

/-- Witness for C6: a manager tracking a live handle is stopped and cleared, a
fresh manager only warns, and a second stop is a no-op. -/
theorem stopProcess_spec_witness :
    ({ process := some { killed := false }, processName := none,
        processState := none } : PMState).process = some { killed := false } ∧
    ProcessManager.stopProcess
        { process := some { killed := false }, processName := none, processState := none } =
      { state := { process := none, processName := none, processState := none }
        signalSent := true
        warning := none } ∧
    ProcessManager.init.process = none ∧
    ProcessManager.stopProcess ProcessManager.init =
      { state := ProcessManager.init, signalSent := false,
        warning := some "No process running to stop" } ∧
    (ProcessManager.stopProcess (ProcessManager.stopProcess
        { process := some { killed := false }, processName := none,
          processState := none }).state).state =
      (ProcessManager.stopProcess
        { process := some { killed := false }, processName := none,
          processState := none }).state :=
  ⟨rfl, stopProcess_spec.1 _ { killed := false } rfl, rfl, stopProcess_spec.2.1 _ rfl,
    stopProcess_spec.2.2 _⟩

/-- C7: `isProcessRunning()` is a pure query: it returns `true` iff a handle is
tracked and not marked killed; in particular it returns `false` on a freshly
constructed manager and `false` after `stopProcess()` has run. -/
theorem isProcessRunning_query :
    (∀ pm : PMState, ProcessManager.isProcessRunning pm = true ↔
      ∃ h : ChildProcessHandle, pm.process = some h ∧ h.killed = false) ∧
    ProcessManager.isProcessRunning ProcessManager.init = false ∧
    (∀ pm : PMState,
      ProcessManager.isProcessRunning (ProcessManager.stopProcess pm).state = false) := by
  refine ⟨?_, rfl, ?_⟩
  · intro pm
    rcases hp : pm.process with _ | h <;>
      simp [ProcessManager.isProcessRunning, hp]
  · intro pm
    rcases hp : pm.process with _ | h <;>
      simp [ProcessManager.stopProcess, ProcessManager.isProcessRunning, hp]

/-- C9: `startAOProcess` is extensionally equal to `startAOProcessForeground`:
the body of `startAOProcess` (lines 174-176) is a single delegation to the
foreground launch mode. -/
theorem startAOProcess_is_foreground (pm : PMState) (config : AOConfig)
    (options : ProcessOptions) :
    ProcessManager.startAOProcess pm config options =
      ProcessManager.startAOProcessForeground pm config options := rfl

/-- Witness for C9 at concrete inputs. -/
theorem startAOProcess_is_foreground_witness :
    ProcessManager.startAOProcess ProcessManager.init
      { luaFiles := ["main.lua"]
        packageManager := "npm"
        framework := "nextjs"
        processName := "my-process"
        portsDev := 3000
        portsBuild := none
        aos := { version := "2.x"
                 features := { coroutines := true, bootloader := false, weavedrive := false } }
        runWithAO := true
        tags := [] } {} =
    ProcessManager.startAOProcessForeground ProcessManager.init
      { luaFiles := ["main.lua"]
        packageManager := "npm"
        framework := "nextjs"
        processName := "my-process"
        portsDev := 3000
        portsBuild := none
        aos := { version := "2.x"
                 features := { coroutines := true, bootloader := false, weavedrive := false } }
        runWithAO := true
        tags := [] } {} :=
  startAOProcess_is_foreground ProcessManager.init
    { luaFiles := ["main.lua"]
      packageManager := "npm"
      framework := "nextjs"
      processName := "my-process"
      portsDev := 3000
      portsBuild := none
      aos := { version := "2.x"
               features := { coroutines := true, bootloader := false, weavedrive := false } }
      runWithAO := true
      tags := [] } {}

/-- A configuration whose `processName` is the empty string (falsy in JS) and
whose Lua file list is empty: the concrete input on which the positional-name
fallback of `startAOProcess` is observed. -/
def configNoProcessName : AOConfig :=
  { luaFiles := []
    packageManager := "npm"
    framework := "nextjs"
    processName := ""
    portsDev := 3000
    portsBuild := none
    aos := { version := "2.x"
             features := { coroutines := false, bootloader := false, weavedrive := false } }
    runWithAO := false
    tags := [] }

/-- C5 (evaluation at the failing input): when both `options.name` and
`config.processName` are falsy, the built argument list contains no positional
process name at all — it is empty, not `["default"]` — even though the
fallback expression the code computes inside the guard (and that its comment
documents) would give `"default"`.  The guard
`if (options.name || config.processName)` makes the `|| 'default'` fallback
unreachable. -/
theorem buildArgs_omits_name_when_unspecified :
    ProcessManager.buildArgs configNoProcessName {} = [] ∧
    ProcessManager.effectiveProcessName configNoProcessName {} = "default" := by
  constructor <;> decide

/-- C4 (counterexample): `findLuaFiles` on a target whose directory listing
fails does not return the empty list — the traversal error is rethrown by the
`catch` block and propagates to the caller. -/
theorem findLuaFiles_raises_on_unreadable_root :
    ProcessManager.findLuaFiles ["proj"] (FsDir.unreadable "EACCES: permission denied") =
      Except.error "EACCES: permission denied" ∧
    ProcessManager.findLuaFiles ["proj"] (FsDir.unreadable "EACCES: permission denied") ≠
      Except.ok [] :=
  ⟨rfl, by decide⟩

/-- C4 (amended): on any traversal error — an unreadable target directory, or
any non-hidden unreadable directory reached by the walk — `findLuaFiles` logs
and then propagates the error to its caller (`throw error` in the catch block);
it does not degrade to an empty result. -/
theorem findLuaFiles_propagates_traversal_errors :
    (∀ (targetPath : List String) (err : String),
      ProcessManager.findLuaFiles targetPath (FsDir.unreadable err) = Except.error err) ∧
    (∀ (targetPath : List String) (es : List FsEntry), ReachesUnreadable es →
      ∃ err, ProcessManager.findLuaFiles targetPath (FsDir.readable es) = Except.error err) := by
  refine ⟨fun _ _ => rfl, ?_⟩
  intro targetPath es hr
  have hno := walkEntries_not_ok_of_reaches hr targetPath targetPath
  rw [ProcessManager.findLuaFiles]
  cases hw : walkEntries targetPath targetPath es with
  | error err => exact ⟨err, rfl⟩
  | ok v => exact absurd ⟨v, hw⟩ hno

/-- Witness for C4 (amended): a readable root containing a non-hidden
unreadable subdirectory makes `findLuaFiles` return an error. -/
theorem findLuaFiles_propagates_witness :
    ReachesUnreadable [FsEntry.dir "src" [FsEntry.unreadableDir "locked" "EACCES"]] ∧
    ∃ err, ProcessManager.findLuaFiles ["proj"]
        (FsDir.readable [FsEntry.dir "src" [FsEntry.unreadableDir "locked" "EACCES"]]) =
      Except.error err := by
  have hr : ReachesUnreadable [FsEntry.dir "src" [FsEntry.unreadableDir "locked" "EACCES"]] :=
    ReachesUnreadable.deeper (List.mem_singleton.mpr rfl) (by decide)
      (ReachesUnreadable.here (List.mem_singleton.mpr rfl) (by decide))
  exact ⟨hr, findLuaFiles_propagates_traversal_errors.2 ["proj"] _ hr⟩

/-- C8: a successful `findLuaFiles(targetPath)` returns exactly the paths,
relative to `targetPath`, of the files whose names end with `.lua`, recursing
into subdirectories but never descending into a directory whose name starts
with `.`; nothing under a hidden directory appears in the result. -/
theorem findLuaFiles_exactly_lua_paths (targetPath : List String) (es : List FsEntry)
    (files : List (List String))
    (h : ProcessManager.findLuaFiles targetPath (FsDir.readable es) = Except.ok files)
    (p : List String) : p ∈ files ↔ EntriesLuaPath es p := by
  rw [ProcessManager.findLuaFiles] at h
  have h2 : walkEntries targetPath (targetPath ++ []) es = Except.ok files := by
    rw [List.append_nil]; exact h
  have h3 := walkEntries_mem_iff targetPath [] es files h2 p
  simpa using h3

/-- Witness for C8: on a tree with a matching file at the root, a non-matching
file, a hidden directory containing a matching file, and a matching file in a
visible subdirectory, the scan returns the two visible `.lua` paths, and the
characterization holds at the nested one. -/
theorem findLuaFiles_exactly_lua_paths_witness :
    ProcessManager.findLuaFiles ["proj"]
        (FsDir.readable [FsEntry.file "a.lua", FsEntry.file "b.txt",
          FsEntry.dir ".git" [FsEntry.file "c.lua"], FsEntry.dir "sub" [FsEntry.file "d.lua"]]) =
      Except.ok [["a.lua"], ["sub", "d.lua"]] ∧
    (["sub", "d.lua"] ∈ [["a.lua"], ["sub", "d.lua"]] ↔
      EntriesLuaPath [FsEntry.file "a.lua", FsEntry.file "b.txt",
        FsEntry.dir ".git" [FsEntry.file "c.lua"], FsEntry.dir "sub" [FsEntry.file "d.lua"]]
        ["sub", "d.lua"]) := by
  have h : ProcessManager.findLuaFiles ["proj"]
      (FsDir.readable [FsEntry.file "a.lua", FsEntry.file "b.txt",
        FsEntry.dir ".git" [FsEntry.file "c.lua"], FsEntry.dir "sub" [FsEntry.file "d.lua"]]) =
      Except.ok [["a.lua"], ["sub", "d.lua"]] := by
    simp [ProcessManager.findLuaFiles, walkEntries, walkEntry]
    decide
  exact ⟨h, findLuaFiles_exactly_lua_paths ["proj"] _ _ h ["sub", "d.lua"]⟩

end AOForge
